import Mathlib

/-!
# goe: application container and lifecycle

A shallow embedding of `src/core/container.go` (the service container) and
`src/goe.go` (the application lifecycle: `NewApp`, the `Use*` accessors, `Run`,
`AddShutdownHook` and the signal hook `sdhook`).

Go code with side effects is embedded in the monad `Eff`: a computation takes
the mutable state, and gives back a result (a value, or an abort), the new
state and the list of observable events it produced, in order.  An abort is a
Go panic, a receive that blocks for ever, or the end of the process by a
signal; the state written before the abort stays visible, as it does in Go for
package-level variables.
-/

namespace Goe

/-! ## Effects -/

/-- The subsystem slots of `core.Container` that hold an optional handle. -/
inductive Slot where
  | mongo | meilisearch | queue | cache | mailer | fiber | cron | emqx
  deriving DecidableEq, Repr

/-- A non-nil value of an external collaborator (a pointer identity). -/
abbrev Handle := Nat

/-- A Go `error` value: `none` is `nil`, `some msg` is an error. -/
abbrev GoError := Option String

/-- The signals of package `syscall` the model distinguishes. -/
inductive Signal where
  | SIGINT | SIGTERM | SIGHUP
  deriving DecidableEq, Repr

/-- What the code does to the outside world, in the order it does it. -/
inductive Event where
  /-- a call of the external constructor that fills the slot -/
  | construct (s : Slot)
  /-- the call `appConfig.EMQX.Complete()` -/
  | emqxComplete
  /-- the call `mongo.SetMeilisearch(ms)` -/
  | setMeilisearch
  /-- the call `logger.Panic(msg, ...)` -/
  | logPanic (msg : String)
  /-- the calls `logger.Info(msg)` and `logger.Infof(msg, ...)` -/
  | logInfo (msg : String)
  /-- a call of `Close()` on the handle held by the slot -/
  | close (s : Slot)
  /-- a call of `Start()` on the handle held by the slot -/
  | start (s : Slot)
  /-- the `go func() { ... Listen(":" + port, ...) ... }()` statement of `Run` -/
  | goListen (port : String)
  /-- the call `signal.Notify(h.ctx, s)` -/
  | signalNotify (s : Signal)
  /-- a value received from the channel `h.ctx` -/
  | signalRecv (s : Signal)
  /-- the call `signal.Stop(h.ctx)` -/
  | signalStop
  /-- the call `f()` of a callback handed to `sdhook.Close` -/
  | invoke (id : Nat)
  /-- the call `ShutdownWithTimeout(n * time.Second)` on the fiber app -/
  | shutdownWithTimeout (seconds : Nat)
  /-- the call of a handler registered with `AddShutdownHook`, by the fiber app -/
  | shutdownHandler (id : Nat)
  /-- the entry the fiber app logs when a shutdown handler returns an error -/
  | logError (msg : String)
  deriving DecidableEq, Repr

/-- How a computation ends when it does not return. -/
inductive Abort where
  /-- a Go panic, with its message -/
  | panic (msg : String)
  /-- a receive on a channel on which nothing arrives -/
  | blocked
  /-- the end of the process by a signal that no channel is notified of -/
  | killed (s : Signal)
  deriving DecidableEq, Repr

/-- The end of a computation: its result, the state it leaves, its events. -/
structure Step (σ α : Type) where
  result : Except Abort α
  state : σ
  trace : List Event

/-- A Go statement sequence over the mutable state `σ`. -/
def Eff (σ α : Type) : Type := σ → Step σ α

namespace Eff

variable {σ α β : Type}

/-- Return a value, touching nothing. -/
def ret (a : α) : Eff σ α := fun s => ⟨.ok a, s, []⟩

/-- Sequencing: the second computation runs only if the first returned. -/
def seq (m : Eff σ α) (f : α → Eff σ β) : Eff σ β := fun s =>
  match m s with
  | ⟨.ok a, s1, t1⟩ =>
    match f a s1 with
    | ⟨r, s2, t2⟩ => ⟨r, s2, t1 ++ t2⟩
  | ⟨.error e, s1, t1⟩ => ⟨.error e, s1, t1⟩

instance : Monad (Eff σ) where
  pure := ret
  bind := seq

/-- Record one event. -/
def emit (e : Event) : Eff σ Unit := fun s => ⟨.ok (), s, [e]⟩

/-- Stop with an abort. -/
def abort (a : Abort) : Eff σ α := fun s => ⟨.error a, s, []⟩

/-- Read the state. -/
def read : Eff σ σ := fun s => ⟨.ok s, s, []⟩

/-- Change the state. -/
def update (f : σ → σ) : Eff σ Unit := fun s => ⟨.ok (), f s, []⟩

end Eff

/-- The Go builtin `panic(msg)` and the runtime panics (nil dereference, failed
type assertion). -/
def goPanic {σ α : Type} (msg : String) : Eff σ α := Eff.abort (.panic msg)

/-- Modelled from the spec: the method `Panic` of `contracts.Logger`, whose
implementation is not part of the two source files.  The spec calls every
initialization failure fatal ("logs and terminates the process"), so the call
writes the log entry and then panics; the statements after it do not run. -/
def loggerPanic {σ α : Type} (msg : String) : Eff σ α := do
  Eff.emit (.logPanic msg)
  Eff.abort (.panic msg)

/-- The methods `Info` and `Infof` of `contracts.Logger`: a log entry. -/
def loggerInfo {σ : Type} (msg : String) : Eff σ Unit := Eff.emit (.logInfo msg)

/-! ## Configuration -/

/-- Type `core.GoeConfigFeatures`. -/
structure GoeConfigFeatures where
  MongoDBEnabled : Bool
  MeilisearchEnabled : Bool
  SearchDBSyncEnabled : Bool
  MailerEnabled : Bool
  EMQXBrokerEnabled : Bool
  deriving DecidableEq, Repr

/-- Type `core.GoeConfigRedis`. -/
structure GoeConfigRedis where
  Host : String
  Port : Int
  Username : String
  Password : String
  deriving DecidableEq, Repr

/-- Type `core.GoeConfigMeilisearch`. -/
structure GoeConfigMeilisearch where
  Endpoint : String
  ApiKey : String
  deriving DecidableEq, Repr

/-- Type `core.GoeConfigHttp`, the field `Run` reads. -/
structure GoeConfigHttp where
  Port : String
  deriving DecidableEq, Repr

/-- Type `core.GoeConfig`, with the groups that the container and the lifecycle
read themselves.  The other groups (MongoDB, Mailer, Queue, Session, S3, OIDC,
EMQX) are only handed on to the external constructors. -/
structure GoeConfig where
  Features : GoeConfigFeatures
  Redis : GoeConfigRedis
  Meilisearch : GoeConfigMeilisearch
  Http : GoeConfigHttp
  deriving DecidableEq, Repr

/-- The value `config.New("./configs")` returns, by the three lookups that
`applyEnvConfig` uses (key, default). -/
structure ConfigModule where
  handle : Handle
  GetOrDefaultString : String → String → String
  GetOrDefaultBool : String → Bool → Bool
  GetOrDefaultInt : String → Int → Int

/-- The two levels of package `log` that `NewApp` chooses between. -/
inductive LogLevel where
  | LevelDev | LevelProd
  deriving DecidableEq, Repr

/-- Method `applyEnvConfig`: the configuration read from the module, for the
groups of `GoeConfig`, and the error it returns, which is always nil. -/
def applyEnvConfig (configModule : ConfigModule) : GoeConfig × GoError :=
  let configs : GoeConfig :=
    { Features :=
        { MongoDBEnabled := configModule.GetOrDefaultBool "MONGODB_ENABLED" false
          MeilisearchEnabled := configModule.GetOrDefaultBool "MEILISEARCH_ENABLED" false
          SearchDBSyncEnabled := configModule.GetOrDefaultBool "MEILISEARCH_DB_SYNC" false
          MailerEnabled := configModule.GetOrDefaultBool "MAILER_ENABLED" false
          EMQXBrokerEnabled := configModule.GetOrDefaultBool "EMQX_BROKER_ENABLED" false }
      Redis :=
        { Host := configModule.GetOrDefaultString "REDIS_HOST" ""
          Port := configModule.GetOrDefaultInt "REDIS_PORT" 0
          Username := configModule.GetOrDefaultString "REDIS_USERNAME" ""
          Password := configModule.GetOrDefaultString "REDIS_PASSWORD" "" }
      Meilisearch :=
        { Endpoint := configModule.GetOrDefaultString "MEILISEARCH_ENDPOINT" ""
          ApiKey := configModule.GetOrDefaultString "MEILISEARCH_API_KEY" "" }
      Http :=
        { Port := configModule.GetOrDefaultString "HTTP_PORT" "3000" } }
  (configs, none)

/-! ## The external collaborators -/

/-- A handler registered with `Hooks().OnShutdown`: the closure of `InitFiber`
that logs and calls `c.Close()`, or a callback of the application, named by a
number. -/
inductive ShutdownHandler where
  | containerClose
  | user (id : Nat)
  deriving DecidableEq, Repr

/-- A handler registered with `Hooks().OnListen`: the go-live closure of
`InitFiber`. -/
inductive ListenHandler where
  | goLive
  deriving DecidableEq, Repr

/-- The fiber wrapper `NewGoeFiber` returns, with the two hook lists of its
`App().Hooks()`, each in registration order. -/
structure GoeFiber where
  handle : Handle
  onShutdown : List ShutdownHandler
  onListen : List ListenHandler
  deriving DecidableEq, Repr

/-- The behaviour of the code outside the two source files: what each external
constructor returns for a configuration, and what the calls on the handles
return. -/
structure Env where
  /-- result of `NewGoeMongoDB(appConfig, logger)` -/
  NewGoeMongoDB : GoeConfig → Except String Handle
  /-- result of `msearch.NewMSearch(endpoint, apiKey, logger)`, `none` for nil -/
  NewMSearch : String → String → Option Handle
  /-- result of `SetMeilisearch(ms)` on the document store -/
  SetMeilisearch : Handle → Handle → GoError
  /-- result of `cache.NewRedisCache(host, port, username, password, db, logger)` -/
  NewRedisCache : String → Int → String → String → Option Handle
  /-- result of `NewGoeQueue(appConfig, logger)` -/
  NewGoeQueue : GoeConfig → Except String Handle
  /-- result of `NewGoeMailer(appConfig, queue, logger)` -/
  NewGoeMailer : GoeConfig → Handle → Option Handle
  /-- result of `NewGoeFiber(appConfig, logger)` -/
  NewGoeFiber : GoeConfig → Option GoeFiber
  /-- result of `cron.NewCronJobService()` -/
  NewCronJobService : Except String Handle
  /-- result of `broker.NewEMQX(appConfig.EMQX)` -/
  NewEMQX : GoeConfig → Except String Handle
  /-- what `Close()` returns on the handle of a slot -/
  closeResult : Slot → Handle → GoError
  /-- what `Start()` returns on the queue -/
  queueStart : Handle → GoError
  /-- result of `config.New(path)` -/
  ConfigNew : String → ConfigModule
  /-- result of `log.New(level)` -/
  LogNew : LogLevel → Handle
  /-- what `Listen(addr, cfg)` returns on the fiber app once it stops serving -/
  Listen : Handle → String → GoError
  /-- what a handler registered with `AddShutdownHook` does when the fiber app
  calls it: it returns an error value (`.ok`), or it panics (`.error`) -/
  handlerResult : Nat → Except String GoError

/-! ## core.Container -/

/-- Type `core.Container`.  The `config` and `logger` fields hold what
`config.New` and `log.New` returned; the eight subsystem slots are nil until
their `Init` method fills them. -/
structure Container where
  config : Handle
  logger : Handle
  mongo : Option Handle
  meilisearch : Option Handle
  queue : Option Handle
  cache : Option Handle
  mailer : Option Handle
  fiber : Option GoeFiber
  cron : Option Handle
  emqx : Option Handle
  appConfig : GoeConfig
  deriving DecidableEq, Repr

/-- Whether a subsystem slot holds a non-nil handle. -/
def Container.nonNil (c : Container) : Slot → Bool
  | .mongo => c.mongo.isSome
  | .meilisearch => c.meilisearch.isSome
  | .queue => c.queue.isSome
  | .cache => c.cache.isSome
  | .mailer => c.mailer.isSome
  | .fiber => c.fiber.isSome
  | .cron => c.cron.isSome
  | .emqx => c.emqx.isSome

/-- Function `NewContainer`: only the three references are stored.  The two
package variables of `core` it also assigns point to the same objects and are
not kept apart. -/
def NewContainer (config logger : Handle) (appConfig : GoeConfig) : Container :=
  { config := config, logger := logger, appConfig := appConfig,
    mongo := none, meilisearch := none, queue := none, cache := none,
    mailer := none, fiber := none, cron := none, emqx := none }

/-- Method `Close` on the handle of a slot: the call is observable and gives
back what the handle returns. -/
def closeHandle (env : Env) (s : Slot) (h : Handle) : Eff Container GoError := do
  Eff.emit (.close s)
  pure (env.closeResult s h)

/-- Method `Container.InitMongo`. -/
def Container.InitMongo (env : Env) : Eff Container Unit := do
  let c ← Eff.read
  Eff.emit (.construct .mongo)
  match env.NewGoeMongoDB c.appConfig with
  | .error _ => loggerPanic "Failed to initialize MongoDB: "
  | .ok mdb => Eff.update fun c => { c with mongo := some mdb }

/-- Method `Container.InitMeilisearch`. -/
def Container.InitMeilisearch (env : Env) : Eff Container Unit := do
  let c ← Eff.read
  if c.appConfig.Features.MeilisearchEnabled then
    if c.appConfig.Meilisearch.ApiKey = "" then
      loggerPanic "meilisearch api key is required"
    else if c.appConfig.Meilisearch.Endpoint = "" then
      loggerPanic "meilisearch endpoint is required"
    else
      Eff.emit (.construct .meilisearch)
      match env.NewMSearch c.appConfig.Meilisearch.Endpoint c.appConfig.Meilisearch.ApiKey with
      | none => loggerPanic "Failed to initialize Meilisearch"
      | some ms =>
        Eff.update fun c => { c with meilisearch := some ms }
        if c.appConfig.Features.SearchDBSyncEnabled then
          match c.mongo with
          | none => goPanic "interface conversion: interface is nil, not *core.GoeMongoDB"
          | some mdb =>
            Eff.emit .setMeilisearch
            match env.SetMeilisearch mdb ms with
            | some _ => loggerPanic "Failed to bind Meilisearch to MongoDB: "
            | none => pure ()
        else
          pure ()
  else
    pure ()

/-- Method `Container.InitCache`. -/
def Container.InitCache (env : Env) : Eff Container Unit := do
  let c ← Eff.read
  if c.appConfig.Redis.Host ≠ "" ∧ c.appConfig.Redis.Port ≠ 0 then
    Eff.emit (.construct .cache)
    let r := env.NewRedisCache c.appConfig.Redis.Host c.appConfig.Redis.Port
      c.appConfig.Redis.Username c.appConfig.Redis.Password
    Eff.update fun c => { c with cache := r }
    if r = none then
      loggerPanic "Failed to initialize Redis Cache"
    else
      pure ()
  else
    loggerPanic "Failed to initialize Redis Cache: missing required redis configuration"

/-- Method `Container.InitQueue`. -/
def Container.InitQueue (env : Env) : Eff Container Unit := do
  let c ← Eff.read
  if c.appConfig.Redis.Host ≠ "" ∧ c.appConfig.Redis.Port ≠ 0 then
    Eff.emit (.construct .queue)
    match env.NewGoeQueue c.appConfig with
    | .error _ => loggerPanic "Failed to initialize Redis MQ: "
    | .ok q => Eff.update fun c => { c with queue := some q }
  else
    loggerPanic "Failed to initialize Redis MQ: missing required redis configuration"

/-- Method `Container.InitMailer`. -/
def Container.InitMailer (env : Env) : Eff Container Unit := do
  let c ← Eff.read
  if c.appConfig.Features.MailerEnabled then
    match c.queue with
    | none => loggerPanic "Queue is required to initialize mailer"
    | some q =>
      Eff.emit (.construct .mailer)
      match env.NewGoeMailer c.appConfig q with
      | none => loggerPanic "Failed to initialize mailer"
      | some mailer => Eff.update fun c => { c with mailer := some mailer }
  else
    pure ()

/-- Method `Container.Close`: the five slots it handles, in its order; what the
individual closes return is dropped. -/
def Container.Close (env : Env) : Eff Container GoError := do
  let c ← Eff.read
  (match c.mongo with
    | some h => do let _ ← closeHandle env .mongo h
    | none => pure ())
  (match c.queue with
    | some h => do let _ ← closeHandle env .queue h
    | none => pure ())
  (match c.cache with
    | some h => do let _ ← closeHandle env .cache h
    | none => pure ())
  (match c.cron with
    | some h => do let _ ← closeHandle env .cron h
    | none => pure ())
  (match c.emqx with
    | some h => do let _ ← closeHandle env .emqx h
    | none => pure ())
  pure none

/-- The shutdown handler that `InitFiber` registers with the fiber app. -/
def onShutdownHandler (env : Env) : Eff Container GoError := do
  loggerInfo "Shutting down the server..."
  Container.Close env

/-- The listen handler that `InitFiber` registers with the fiber app (the
go-live callback).  The queue is type-asserted without a nil test; the
scheduler is started only when its slot is not nil. -/
def onListenHandler (env : Env) : Eff Container GoError := do
  let c ← Eff.read
  match c.queue with
  | none => goPanic "interface conversion: interface is nil, not *core.GoeQueue"
  | some q =>
    Eff.emit (.start .queue)
    match env.queueStart q with
    | some err =>
      loggerPanic "Failed to start MQ: "
      pure (some err)
    | none =>
      (if c.cron.isSome then Eff.emit (.start .cron) else pure ())
      loggerInfo "Server is running on http://%s:%s"
      pure none

/-- Method `Container.InitFiber`. -/
def Container.InitFiber (env : Env) : Eff Container Unit := do
  let c ← Eff.read
  Eff.emit (.construct .fiber)
  match env.NewGoeFiber c.appConfig with
  | none => loggerPanic "Failed to initialize Fiber"
  | some fb =>
    let fb : GoeFiber := { fb with onShutdown := fb.onShutdown ++ [ShutdownHandler.containerClose] }
    let fb : GoeFiber := { fb with onListen := fb.onListen ++ [ListenHandler.goLive] }
    Eff.update fun c => { c with fiber := some fb }

/-- Method `Container.InitCron`. -/
def Container.InitCron (env : Env) : Eff Container Unit := do
  Eff.emit (.construct .cron)
  match env.NewCronJobService with
  | .error _ => loggerPanic "Failed to initialize cron job service: "
  | .ok mod => Eff.update fun c => { c with cron := some mod }

/-- Method `Container.InitEMQX`. -/
def Container.InitEMQX (env : Env) : Eff Container Unit := do
  let c ← Eff.read
  if c.appConfig.Features.EMQXBrokerEnabled then
    Eff.emit .emqxComplete
    Eff.emit (.construct .emqx)
    match env.NewEMQX c.appConfig with
    | .error _ => loggerPanic "Failed to initialize emqx broker service: "
    | .ok emqx => Eff.update fun c => { c with emqx := some emqx }
  else
    pure ()

/-! ## The application (goe.go) -/

/-- Type `App`.  The container is the object both `app.container` and the
package variable of `core` point to. -/
structure App where
  configs : GoeConfig
  container : Container
  running : Bool
  deriving DecidableEq, Repr

/-- The package state: the variable `appInstance`, and the termination signals
the operating system still has to deliver to the process, in order. -/
structure World where
  appInstance : Option App
  pending : List Signal
  deriving DecidableEq, Repr

/-- A method call on `appInstance.container`: the container of the app is the
state of the method.  With `appInstance` nil the selector dereferences nil. -/
def onContainer {α : Type} (m : Eff Container α) : Eff World α := fun w =>
  match w.appInstance with
  | none => ⟨.error (.panic "invalid memory address or nil pointer dereference"), w, []⟩
  | some app =>
    match m app.container with
    | ⟨r, c, t⟩ => ⟨r, { w with appInstance := some { app with container := c } }, t⟩

/-- The assignment `appInstance.running = b`. -/
def setRunning (b : Bool) : Eff World Unit :=
  Eff.update fun w => { w with appInstance := w.appInstance.map fun a => { a with running := b } }

/-- The initialization sequence of `NewApp` (the statements after
`appInstance = app`).  The flags are read from `appInstance.configs`, which is
the configuration `applyEnvConfig` has just stored and which no step changes;
the call of `InitEMQX` is commented out in the source. -/
def initSequence (env : Env) (configs : GoeConfig) : Eff World Unit := do
  (if configs.Features.MongoDBEnabled then onContainer (Container.InitMongo env) else pure ())
  (if configs.Features.MeilisearchEnabled && configs.Features.MongoDBEnabled then
    onContainer (Container.InitMeilisearch env) else pure ())
  onContainer (Container.InitQueue env)
  onContainer (Container.InitCron env)
  onContainer (Container.InitCache env)
  (if configs.Features.MailerEnabled then onContainer (Container.InitMailer env) else pure ())
  onContainer (Container.InitFiber env)

/-- The configuration `NewApp` works with. -/
def Env.configs (env : Env) : GoeConfig := (applyEnvConfig (env.ConfigNew "./configs")).1

/-- The app `NewApp` stores in `appInstance` before the initialization
sequence starts. -/
def Env.newApp (env : Env) : App :=
  let configModule := env.ConfigNew "./configs"
  let appEnv := configModule.GetOrDefaultString "APP_ENV" "dev"
  let logModule := if appEnv = "dev" then env.LogNew .LevelDev else env.LogNew .LevelProd
  { configs := env.configs
    container := NewContainer configModule.handle logModule env.configs
    running := false }

/-- Function `NewApp`. -/
def NewApp (env : Env) : Eff World GoError := do
  let configModule := env.ConfigNew "./configs"
  let appEnv := configModule.GetOrDefaultString "APP_ENV" "dev"
  let logModule := if appEnv = "dev" then env.LogNew .LevelDev else env.LogNew .LevelProd
  match applyEnvConfig configModule with
  | (_, some err) => pure (some err)
  | (configs, none) =>
    let app : App :=
      { configs := configs
        container := NewContainer configModule.handle logModule configs
        running := false }
    Eff.update fun w => { w with appInstance := some app }
    initSequence env configs
    pure none

/-- The guard every `Use*` accessor starts with. -/
def mustInit {α : Type} (get : Container → α) : Eff World α := do
  let w ← Eff.read
  match w.appInstance with
  | none => goPanic "must initialize App first, by calling NewApp() method"
  | some app => pure (get app.container)

/-- Function `UseDB`. -/
def UseDB : Eff World (Option Handle) := mustInit fun c => c.mongo

/-- Function `UseCron`. -/
def UseCron : Eff World (Option Handle) := mustInit fun c => c.cron

/-- Function `UseLog`. -/
def UseLog : Eff World (Option Handle) := mustInit fun c => some c.logger

/-- Function `UseCfg`. -/
def UseCfg : Eff World (Option Handle) := mustInit fun c => some c.config

/-- Function `UseMQ`. -/
def UseMQ : Eff World (Option Handle) := mustInit fun c => c.queue

/-- Function `UseCache`. -/
def UseCache : Eff World (Option Handle) := mustInit fun c => c.cache

/-- Function `UseSearch`. -/
def UseSearch : Eff World (Option Handle) := mustInit fun c => c.meilisearch

/-- Function `UseMailer`. -/
def UseMailer : Eff World (Option Handle) := mustInit fun c => c.mailer

/-- Function `UseFiber`. -/
def UseFiber : Eff World (Option GoeFiber) := mustInit fun c => c.fiber

/-- Function `UseEMQX`. -/
def UseEMQX : Eff World (Option Handle) := mustInit fun c => c.emqx

/-- Type `sdhook`: the signals its channel `ctx` is notified of. -/
structure sdhook where
  notified : List Signal
  deriving DecidableEq, Repr

/-- A callback handed to `sdhook.Close`: a number that names it and its body. -/
structure Callback where
  id : Nat
  body : Eff World Unit

/-- Method `sdhook.WithSignals`: one `signal.Notify` for each signal. -/
def sdhook.WithSignals (h : sdhook) : List Signal → Eff World sdhook
  | [] => pure h
  | s :: signals => do
    Eff.emit (.signalNotify s)
    sdhook.WithSignals { h with notified := h.notified ++ [s] } signals

/-- Function `newShutdownHook`. -/
def newShutdownHook : Eff World sdhook :=
  sdhook.WithSignals { notified := [] } [.SIGINT, .SIGTERM]

/-- The loop `for _, f := range funcs { f() }`. -/
def callAll : List Callback → Eff World Unit
  | [] => pure ()
  | f :: funcs => do
    Eff.emit (.invoke f.id)
    f.body
    callAll funcs

/-- What the receive `<-h.ctx` comes to. -/
inductive Received where
  /-- nothing is delivered to the process: the receive blocks -/
  | blocked
  /-- the next signal delivered is one the channel is not notified of: its
  default disposition ends the process -/
  | killed (s : Signal)
  /-- the next signal delivered is one the channel is notified of: it is
  received; the signals delivered after it stay pending -/
  | got (s : Signal) (rest : List Signal)
  deriving DecidableEq, Repr

/-- The receive `<-h.ctx`, by the next signal delivered to the process.  The
three signals of the model all end a Go process that is not notified of them. -/
def receive (notified : List Signal) : List Signal → Received
  | [] => .blocked
  | s :: rest => if s ∈ notified then .got s rest else .killed s

/-- Method `sdhook.Close`: the receive on `h.ctx`, then `signal.Stop` and the
callbacks, in order. -/
def sdhook.Close (h : sdhook) (funcs : List Callback) : Eff World Unit := do
  let w ← Eff.read
  match receive h.notified w.pending with
  | .blocked => Eff.abort .blocked
  | .killed s => Eff.abort (.killed s)
  | .got s rest =>
    Eff.update fun w => { w with pending := rest }
    Eff.emit (.signalRecv s)
    Eff.emit .signalStop
    callAll funcs

/-- The loop over the shutdown handlers that the fiber app runs, synchronously,
inside `ShutdownWithTimeout`: every registered handler is called, in
registration order; an error a handler returns is logged by fiber and dropped.
The handler of `InitFiber` is `onShutdownHandler`; a handler of the application
is called and returns or panics as `env.handlerResult` says. -/
def executeOnShutdownHooks (env : Env) : List ShutdownHandler → Eff World Unit
  | [] => pure ()
  | .containerClose :: hooks => do
    let err ← onContainer (onShutdownHandler env)
    (if err.isSome then Eff.emit (.logError "failed to call shutdown hook: %v") else pure ())
    executeOnShutdownHooks env hooks
  | .user id :: hooks => do
    Eff.emit (.shutdownHandler id)
    match env.handlerResult id with
    | .error msg => goPanic msg
    | .ok err =>
      (if err.isSome then Eff.emit (.logError "failed to call shutdown hook: %v") else pure ())
      executeOnShutdownHooks env hooks

/-- The closure `Run` hands to `Close`.  `ShutdownWithTimeout` runs the
shutdown handlers registered with the fiber app before it returns. -/
def runShutdown (env : Env) : Callback where
  id := 0
  body := do
    setRunning false
    let w ← Eff.read
    match w.appInstance.bind (fun a => a.container.fiber) with
    | none => goPanic "invalid memory address or nil pointer dereference"
    | some fb =>
      Eff.emit (.shutdownWithTimeout 5)
      executeOnShutdownHooks env fb.onShutdown
      loggerInfo "Server has shutdown successfully!"

/-- The body of the goroutine that `Run` starts; it runs beside `Run`, and
`env.Listen` is what `Listen` returns when it stops serving. -/
def listenGoroutine (env : Env) : Eff World Unit := do
  let w ← Eff.read
  match w.appInstance with
  | none => goPanic "invalid memory address or nil pointer dereference"
  | some app =>
    match app.container.fiber with
    | none => goPanic "invalid memory address or nil pointer dereference"
    | some fb =>
      match env.Listen fb.handle (":" ++ app.configs.Http.Port) with
      | none => pure ()
      | some _ =>
        setRunning false
        loggerPanic "Server error: "

/-- Function `Run`: the path of the calling goroutine.  The `go` statement is
an event; the body it starts is `listenGoroutine`. -/
def Run (env : Env) : Eff World GoError := do
  let w ← Eff.read
  match w.appInstance with
  | none => pure (some "must initialize App first, by calling NewApp() method")
  | some app =>
    if app.running then
      pure (some "app is already running")
    else
      Eff.emit (.goListen app.configs.Http.Port)
      setRunning true
      let h ← newShutdownHook
      h.Close [runShutdown env]
      pure none

/-- Function `AddShutdownHook`: the handlers are appended to the shutdown hooks
of the fiber app. -/
def AddShutdownHook (hookHandlers : List Nat) : Eff World GoError := do
  let w ← Eff.read
  match w.appInstance with
  | none => pure (some "must initialize App first, by calling NewApp() method")
  | some app =>
    if app.running then
      pure (some "app is already running, shutdown hook must be added before calling Run()")
    else
      match app.container.fiber with
      | none => goPanic "invalid memory address or nil pointer dereference"
      | some fb =>
        let fb : GoeFiber :=
          { fb with onShutdown := fb.onShutdown ++ hookHandlers.map ShutdownHandler.user }
        Eff.update fun w =>
          { w with appInstance := some { app with container := { app.container with fiber := some fb } } }
        pure none

/-! ## Notions used in the statements -/

section
variable {σ α : Type}

/-- Invariant: from a state with `P` the computation ends, by a return or an
abort, in a state with `P`, and every event it produces satisfies `E`. -/
def Keeps (P : σ → Prop) (E : Event → Prop) (m : Eff σ α) : Prop :=
  ∀ x, P x → P (m x).state ∧ ∀ e ∈ (m x).trace, E e

/-- Postcondition of a return: when the computation returns, `Q` holds of the
state it leaves. -/
def Ensures (m : Eff σ α) (Q : σ → Prop) : Prop :=
  ∀ x a, (m x).result = .ok a → Q (m x).state

/-- Total correctness: from a state with `P` the computation returns, in a
state with `Q`. -/
def Triple (P : σ → Prop) (m : Eff σ α) (Q : σ → Prop) : Prop :=
  ∀ x, P x → (∃ a, (m x).result = .ok a) ∧ Q (m x).state

end

/-- The slot `s` of the container is nil. -/
def Container.empty (s : Slot) (c : Container) : Prop := c.nonNil s = false

/-- The app is set and the slot `s` of its container is nil. -/
def World.empty (s : Slot) (w : World) : Prop :=
  ∃ app, w.appInstance = some app ∧ app.container.nonNil s = false

/-- The event is not a call of the constructor of slot `s`. -/
def notConstruct (s : Slot) (e : Event) : Prop := e ≠ .construct s

/-- The app is set and its running flag is `b`. -/
def World.runningIs (b : Bool) (w : World) : Prop :=
  ∃ app, w.appInstance = some app ∧ app.running = b

/-- The listener slot of the app is filled. -/
def World.hasFiber (w : World) : Prop :=
  ∃ app fb, w.appInstance = some app ∧ app.container.fiber = some fb

/-- The configuration is valid: the redis settings the mandatory subsystems
need are there, every constructor of a mandatory subsystem succeeds, and so
does every constructor of a subsystem whose flag is true. -/
structure Env.Valid (env : Env) : Prop where
  redisHost : env.configs.Redis.Host ≠ ""
  redisPort : env.configs.Redis.Port ≠ 0
  queue : ∃ q, env.NewGoeQueue env.configs = .ok q
  cron : ∃ h, env.NewCronJobService = .ok h
  cache : ∃ h, env.NewRedisCache env.configs.Redis.Host env.configs.Redis.Port
    env.configs.Redis.Username env.configs.Redis.Password = some h
  fiber : ∃ fb, env.NewGoeFiber env.configs = some fb
  mongo : env.configs.Features.MongoDBEnabled = true →
    ∃ mdb, env.NewGoeMongoDB env.configs = .ok mdb
  searchKey : env.configs.Features.MeilisearchEnabled = true →
    env.configs.Meilisearch.ApiKey ≠ ""
  searchEndpoint : env.configs.Features.MeilisearchEnabled = true →
    env.configs.Meilisearch.Endpoint ≠ ""
  search : env.configs.Features.MeilisearchEnabled = true →
    ∃ ms, env.NewMSearch env.configs.Meilisearch.Endpoint env.configs.Meilisearch.ApiKey = some ms
  searchSync : env.configs.Features.SearchDBSyncEnabled = true →
    ∀ mdb ms, env.SetMeilisearch mdb ms = none
  mailer : env.configs.Features.MailerEnabled = true →
    ∀ q, ∃ m, env.NewGoeMailer env.configs q = some m

/-- The container works with the configuration `cfg` and every slot in `S` is
filled. -/
def Has (cfg : GoeConfig) (S : Slot → Prop) (c : Container) : Prop :=
  c.appConfig = cfg ∧ ∀ s, S s → c.nonNil s = true

/-- The app is set and its container satisfies `P`. -/
def World.container (P : Container → Prop) (w : World) : Prop :=
  ∃ app, w.appInstance = some app ∧ P app.container

/-- The slots that a returned initialization sequence has filled. -/
def filled (cfg : GoeConfig) (s : Slot) : Prop :=
  ((((((False ∨ s = .mongo ∧ cfg.Features.MongoDBEnabled = true) ∨
    s = .meilisearch ∧ cfg.Features.MeilisearchEnabled = true ∧
      cfg.Features.MongoDBEnabled = true) ∨
    s = .queue) ∨ s = .cron) ∨ s = .cache) ∨
    s = .mailer ∧ cfg.Features.MailerEnabled = true) ∨ s = .fiber

/-- The slots `Container.Close` closes, in its order. -/
def closedSlots : List Slot := [.mongo, .queue, .cache, .cron, .emqx]

/-- A configuration module: the five feature flags and the redis host and port
are as given, the search endpoint and key are set, every other key is absent,
so that its default is returned. -/
def sampleModule (mongo search sync mailer broker : Bool) (host : String) (port : Int) :
    ConfigModule where
  handle := 1
  GetOrDefaultString := fun key dflt =>
    if key = "REDIS_HOST" then host
    else if key = "MEILISEARCH_ENDPOINT" then "http://localhost:7700"
    else if key = "MEILISEARCH_API_KEY" then "masterKey"
    else dflt
  GetOrDefaultBool := fun key dflt =>
    if key = "MONGODB_ENABLED" then mongo
    else if key = "MEILISEARCH_ENABLED" then search
    else if key = "MEILISEARCH_DB_SYNC" then sync
    else if key = "MAILER_ENABLED" then mailer
    else if key = "EMQX_BROKER_ENABLED" then broker
    else dflt
  GetOrDefaultInt := fun key dflt => if key = "REDIS_PORT" then port else dflt

/-- An environment that reads the given configuration module and in which every
external constructor succeeds and every close and start returns nil; the
application handler 99 panics, every other one returns nil. -/
def sampleEnv (cm : ConfigModule) : Env where
  NewGoeMongoDB := fun _ => .ok 10
  NewMSearch := fun _ _ => some 11
  SetMeilisearch := fun _ _ => none
  NewRedisCache := fun _ _ _ _ => some 12
  NewGoeQueue := fun _ => .ok 13
  NewGoeMailer := fun _ _ => some 14
  NewGoeFiber := fun _ => some ⟨15, [], []⟩
  NewCronJobService := .ok 16
  NewEMQX := fun _ => .ok 17
  closeResult := fun _ _ => none
  queueStart := fun _ => none
  ConfigNew := fun _ => cm
  LogNew := fun _ => 2
  Listen := fun _ _ => none
  handlerResult := fun id => if id = 99 then .error "handler failed" else .ok none

/-- The process before `NewApp`: no app; the given signals will be delivered. -/
def freshWorld (pending : List Signal) : World := { appInstance := none, pending := pending }

/-- All features off, redis at localhost:6379. -/
def plainEnv : Env := sampleEnv (sampleModule false false false false false "localhost" 6379)

/-- Search and broker on, document store off, redis at localhost:6379. -/
def searchOnlyEnv : Env := sampleEnv (sampleModule false true false false true "localhost" 6379)

/-- Every feature on, redis at localhost:6379. -/
def fullEnv : Env := sampleEnv (sampleModule true true true true true "localhost" 6379)

/-- No redis host and port configured, mailer on. -/
def noRedisEnv : Env := sampleEnv (sampleModule false false false true false "" 0)

/-- The state in which `Run` waits for a signal, after `NewApp` with every
feature on. -/
def waitingWorld : World := (Run fullEnv (NewApp fullEnv (freshWorld [])).state).state

/-- The container `NewApp` leaves with every feature on. -/
def fullContainer : Container :=
  match (NewApp fullEnv (freshWorld [])).state.appInstance with
  | some app => app.container
  | none => NewContainer 1 2 fullEnv.configs

/-- A container built with the exported methods of `core`: `NewContainer`, then
`InitCron` and `InitFiber`, without `InitQueue`. -/
def noQueueContainer : Container :=
  (Container.InitFiber plainEnv
    (Container.InitCron plainEnv (NewContainer 1 2 plainEnv.configs)).state).state

/-- An environment in which every `Close()` of a subsystem returns an error. -/
def failingCloseEnv : Env :=
  { fullEnv with closeResult := fun _ _ => some "close failed" }

section
variable {σ α β : Type}

@[simp] theorem Eff.pure_apply (a : α) (s : σ) : (pure a : Eff σ α) s = ⟨.ok a, s, []⟩ := rfl

@[simp] theorem Eff.ret_apply (a : α) (s : σ) : (Eff.ret a : Eff σ α) s = ⟨.ok a, s, []⟩ := rfl

@[simp] theorem Eff.bind_apply (m : Eff σ α) (f : α → Eff σ β) (s : σ) :
    (m >>= f) s = Eff.seq m f s := rfl

theorem Eff.seq_ok {m : Eff σ α} {f : α → Eff σ β} {s s1 : σ} {a : α} {t1 : List Event}
    (h : m s = ⟨.ok a, s1, t1⟩) :
    Eff.seq m f s = ⟨(f a s1).result, (f a s1).state, t1 ++ (f a s1).trace⟩ := by
  simp only [Eff.seq, h]

theorem Eff.seq_error {m : Eff σ α} {f : α → Eff σ β} {s s1 : σ} {e : Abort} {t1 : List Event}
    (h : m s = ⟨.error e, s1, t1⟩) :
    Eff.seq m f s = ⟨.error e, s1, t1⟩ := by
  simp only [Eff.seq, h]

/-- The two ways a sequence ends: the first part aborts, or it returns and the
second part runs from the state it left. -/
theorem Eff.seq_cases (m : Eff σ α) (f : α → Eff σ β) (s : σ) :
    (∃ e, (m s).result = .error e ∧ (Eff.seq m f s).state = (m s).state ∧
        (Eff.seq m f s).trace = (m s).trace ∧ (Eff.seq m f s).result = .error e) ∨
    (∃ a, (m s).result = .ok a ∧ (Eff.seq m f s).state = (f a (m s).state).state ∧
        (Eff.seq m f s).trace = (m s).trace ++ (f a (m s).state).trace ∧
        (Eff.seq m f s).result = (f a (m s).state).result) := by
  rcases hm : m s with ⟨r, s1, t1⟩
  cases r with
  | error e => exact Or.inl ⟨e, rfl, by simp [Eff.seq_error hm]⟩
  | ok a => exact Or.inr ⟨a, rfl, by simp [Eff.seq_ok hm]⟩

theorem Keeps.seq {P : σ → Prop} {E : Event → Prop} {m : Eff σ α} {f : α → Eff σ β}
    (hm : Keeps P E m) (hf : ∀ a, Keeps P E (f a)) : Keeps P E (m >>= f) := by
  intro x hx
  rw [Eff.bind_apply]
  rcases Eff.seq_cases m f x with ⟨e, _, hs, ht, _⟩ | ⟨a, _, hs, ht, _⟩
  · rw [hs, ht]; exact hm x hx
  · rw [hs, ht]
    have h1 := hm x hx
    have h2 := hf a _ h1.1
    refine ⟨h2.1, fun e he => ?_⟩
    rcases List.mem_append.mp he with h | h
    · exact h1.2 e h
    · exact h2.2 e h

theorem Keeps.pure {P : σ → Prop} {E : Event → Prop} (a : α) : Keeps P E (pure a : Eff σ α) :=
  fun _ hx => ⟨hx, by simp⟩

theorem Keeps.read {P : σ → Prop} {E : Event → Prop} : Keeps P E (Eff.read : Eff σ σ) :=
  fun _ hx => ⟨hx, by simp [Eff.read]⟩

theorem Keeps.abort {P : σ → Prop} {E : Event → Prop} (a : Abort) :
    Keeps P E (Eff.abort a : Eff σ α) :=
  fun _ hx => ⟨hx, by simp [Eff.abort]⟩

theorem Keeps.emit {P : σ → Prop} {E : Event → Prop} {e : Event} (h : E e) :
    Keeps P E (Eff.emit e : Eff σ Unit) :=
  fun _ hx => ⟨hx, by simpa [Eff.emit] using h⟩

theorem Keeps.update {P : σ → Prop} {E : Event → Prop} {f : σ → σ} (h : ∀ x, P x → P (f x)) :
    Keeps P E (Eff.update f) :=
  fun x hx => ⟨h x hx, by simp [Eff.update]⟩

theorem Keeps.loggerPanic {P : σ → Prop} {E : Event → Prop} (msg : String)
    (h : E (.logPanic msg)) : Keeps P E (loggerPanic msg : Eff σ α) :=
  Keeps.seq (Keeps.emit h) fun _ => Keeps.abort _

theorem Keeps.goPanic {P : σ → Prop} {E : Event → Prop} (msg : String) :
    Keeps P E (goPanic msg : Eff σ α) :=
  Keeps.abort _

theorem Ensures.seq_right {m : Eff σ α} {f : α → Eff σ β} {Q : σ → Prop}
    (hf : ∀ a, Ensures (f a) Q) : Ensures (m >>= f) Q := by
  intro x b hb
  rw [Eff.bind_apply] at hb ⊢
  rcases Eff.seq_cases m f x with ⟨e, _, _, _, hr⟩ | ⟨a, _, hs, _, hr⟩
  · rw [hr] at hb; cases hb
  · rw [hr] at hb; rw [hs]; exact hf a _ b hb

theorem Triple.andThen {P R Q : σ → Prop} {m : Eff σ α} {f : α → Eff σ β}
    (hm : Triple P m R) (hf : ∀ a, Triple R (f a) Q) : Triple P (m >>= f) Q := by
  intro x hx
  rw [Eff.bind_apply]
  obtain ⟨⟨a, ha⟩, hR⟩ := hm x hx
  rcases Eff.seq_cases m f x with ⟨e, he, _, _, _⟩ | ⟨a', ha', hs, _, hr⟩
  · rw [ha] at he; cases he
  · rw [hs, hr]; exact hf a' _ hR

theorem Triple.skip {P Q : σ → Prop} (a : α) (h : ∀ x, P x → Q x) :
    Triple P (pure a : Eff σ α) Q :=
  fun x hx => ⟨⟨a, rfl⟩, h x hx⟩

end

/-! ## Lifting container methods to the app -/

/-- An invariant of a container method is an invariant of the call on
`appInstance.container`, for a world property that says the app is set and
follows the container property. -/
theorem Keeps.onContainer {α : Type} {PW : World → Prop} {PC : Container → Prop}
    {E : Event → Prop} {m : Eff Container α}
    (hlift : ∀ w, PW w → ∃ app, w.appInstance = some app ∧ PC app.container ∧
      ∀ c, PC c → PW { w with appInstance := some { app with container := c } })
    (h : Keeps PC E m) : Keeps PW E (onContainer m) := by
  intro w hw
  obtain ⟨app, happ, hc, hback⟩ := hlift w hw
  have := h app.container hc
  simp only [Goe.onContainer, happ]
  exact ⟨hback _ this.1, this.2⟩

/-- Every computation keeps the trivial invariant. -/
theorem Keeps.trivial {σ α : Type} (m : Eff σ α) : Keeps (fun _ => True) (fun _ => True) m :=
  fun _ _ => ⟨True.intro, fun _ _ => True.intro⟩

/-! ## Slots that stay empty -/

theorem World.empty_lift (s : Slot) (w : World) (hw : World.empty s w) :
    ∃ app, w.appInstance = some app ∧ Container.empty s app.container ∧
      ∀ c, Container.empty s c →
        World.empty s { w with appInstance := some { app with container := c } } := by
  obtain ⟨app, happ, hc⟩ := hw
  exact ⟨app, happ, hc, fun c hc => ⟨_, rfl, hc⟩⟩

theorem InitMongo_keeps (env : Env) (s : Slot) (h : s ≠ .mongo) :
    Keeps (Container.empty s) (notConstruct s) (Container.InitMongo env) := by
  unfold Container.InitMongo
  repeat' first
    | exact Keeps.read
    | exact Keeps.pure _
    | exact Keeps.loggerPanic _ (by simp [notConstruct])
    | exact Keeps.goPanic _
    | exact Keeps.emit (by simp [notConstruct, Ne.symm h])
    | exact Keeps.update (by intro c hc; cases s <;> simp_all [Container.empty, Container.nonNil])
    | refine Keeps.seq ?_ (fun _ => ?_)
    | split

theorem InitMeilisearch_keeps (env : Env) (s : Slot) (h : s ≠ .meilisearch) :
    Keeps (Container.empty s) (notConstruct s) (Container.InitMeilisearch env) := by
  unfold Container.InitMeilisearch
  repeat' first
    | exact Keeps.read
    | exact Keeps.pure _
    | exact Keeps.loggerPanic _ (by simp [notConstruct])
    | exact Keeps.goPanic _
    | exact Keeps.emit (by simp [notConstruct, Ne.symm h])
    | exact Keeps.update (by intro c hc; cases s <;> simp_all [Container.empty, Container.nonNil])
    | refine Keeps.seq ?_ (fun _ => ?_)
    | split

theorem InitQueue_keeps (env : Env) (s : Slot) (h : s ≠ .queue) :
    Keeps (Container.empty s) (notConstruct s) (Container.InitQueue env) := by
  unfold Container.InitQueue
  repeat' first
    | exact Keeps.read
    | exact Keeps.pure _
    | exact Keeps.loggerPanic _ (by simp [notConstruct])
    | exact Keeps.goPanic _
    | exact Keeps.emit (by simp [notConstruct, Ne.symm h])
    | exact Keeps.update (by intro c hc; cases s <;> simp_all [Container.empty, Container.nonNil])
    | refine Keeps.seq ?_ (fun _ => ?_)
    | split

theorem InitCron_keeps (env : Env) (s : Slot) (h : s ≠ .cron) :
    Keeps (Container.empty s) (notConstruct s) (Container.InitCron env) := by
  unfold Container.InitCron
  repeat' first
    | exact Keeps.read
    | exact Keeps.pure _
    | exact Keeps.loggerPanic _ (by simp [notConstruct])
    | exact Keeps.goPanic _
    | exact Keeps.emit (by simp [notConstruct, Ne.symm h])
    | exact Keeps.update (by intro c hc; cases s <;> simp_all [Container.empty, Container.nonNil])
    | refine Keeps.seq ?_ (fun _ => ?_)
    | split

theorem InitCache_keeps (env : Env) (s : Slot) (h : s ≠ .cache) :
    Keeps (Container.empty s) (notConstruct s) (Container.InitCache env) := by
  unfold Container.InitCache
  repeat' first
    | exact Keeps.read
    | exact Keeps.pure _
    | exact Keeps.loggerPanic _ (by simp [notConstruct])
    | exact Keeps.goPanic _
    | exact Keeps.emit (by simp [notConstruct, Ne.symm h])
    | exact Keeps.update (by intro c hc; cases s <;> simp_all [Container.empty, Container.nonNil])
    | refine Keeps.seq ?_ (fun _ => ?_)
    | split

theorem InitMailer_keeps (env : Env) (s : Slot) (h : s ≠ .mailer) :
    Keeps (Container.empty s) (notConstruct s) (Container.InitMailer env) := by
  unfold Container.InitMailer
  repeat' first
    | exact Keeps.read
    | exact Keeps.pure _
    | exact Keeps.loggerPanic _ (by simp [notConstruct])
    | exact Keeps.goPanic _
    | exact Keeps.emit (by simp [notConstruct, Ne.symm h])
    | exact Keeps.update (by intro c hc; cases s <;> simp_all [Container.empty, Container.nonNil])
    | refine Keeps.seq ?_ (fun _ => ?_)
    | split

theorem InitFiber_keeps (env : Env) (s : Slot) (h : s ≠ .fiber) :
    Keeps (Container.empty s) (notConstruct s) (Container.InitFiber env) := by
  unfold Container.InitFiber
  repeat' first
    | exact Keeps.read
    | exact Keeps.pure _
    | exact Keeps.loggerPanic _ (by simp [notConstruct])
    | exact Keeps.goPanic _
    | exact Keeps.emit (by simp [notConstruct, Ne.symm h])
    | exact Keeps.update (by intro c hc; cases s <;> simp_all [Container.empty, Container.nonNil])
    | refine Keeps.seq ?_ (fun _ => ?_)
    | split

theorem InitEMQX_keeps (env : Env) (s : Slot) (h : s ≠ .emqx) :
    Keeps (Container.empty s) (notConstruct s) (Container.InitEMQX env) := by
  unfold Container.InitEMQX
  repeat' first
    | exact Keeps.read
    | exact Keeps.pure _
    | exact Keeps.loggerPanic _ (by simp [notConstruct])
    | exact Keeps.goPanic _
    | exact Keeps.emit (by simp [notConstruct, Ne.symm h])
    | exact Keeps.update (by intro c hc; cases s <;> simp_all [Container.empty, Container.nonNil])
    | refine Keeps.seq ?_ (fun _ => ?_)
    | split

/-- The initialization sequence keeps a slot nil and never calls its
constructor when the slot is the broker, or one of document store, search and
mailer with its flag false. -/
theorem initSequence_keeps (env : Env) (configs : GoeConfig) (s : Slot)
    (hs : s = .mongo ∨ s = .meilisearch ∨ s = .mailer ∨ s = .emqx)
    (hmongo : s = .mongo → configs.Features.MongoDBEnabled = false)
    (hsearch : s = .meilisearch → configs.Features.MeilisearchEnabled = false)
    (hmailer : s = .mailer → configs.Features.MailerEnabled = false) :
    Keeps (World.empty s) (notConstruct s) (initSequence env configs) := by
  unfold initSequence
  refine Keeps.seq ?_ fun _ => Keeps.seq ?_ fun _ => Keeps.seq ?_ fun _ => Keeps.seq ?_ fun _ =>
    Keeps.seq ?_ fun _ => Keeps.seq ?_ fun _ => ?_
  · split
    · next hf =>
      exact Keeps.onContainer (World.empty_lift s)
        (InitMongo_keeps env s fun h => by simp [hmongo h] at hf)
    · exact Keeps.pure _
  · split
    · next hf =>
      exact Keeps.onContainer (World.empty_lift s)
        (InitMeilisearch_keeps env s fun h => by simp [hsearch h] at hf)
    · exact Keeps.pure _
  · exact Keeps.onContainer (World.empty_lift s)
      (InitQueue_keeps env s (by rcases hs with h | h | h | h <;> simp [h]))
  · exact Keeps.onContainer (World.empty_lift s)
      (InitCron_keeps env s (by rcases hs with h | h | h | h <;> simp [h]))
  · exact Keeps.onContainer (World.empty_lift s)
      (InitCache_keeps env s (by rcases hs with h | h | h | h <;> simp [h]))
  · split
    · next hf =>
      exact Keeps.onContainer (World.empty_lift s)
        (InitMailer_keeps env s fun h => by simp [hmailer h] at hf)
    · exact Keeps.pure _
  · exact Keeps.onContainer (World.empty_lift s)
      (InitFiber_keeps env s (by rcases hs with h | h | h | h <;> simp [h]))

/-- What `NewApp` does: it stores the new app and runs the initialization
sequence from there. -/
theorem NewApp_eq (env : Env) (w : World) :
    NewApp env w =
      ⟨(initSequence env env.configs { w with appInstance := some env.newApp }).result.map
          fun _ => none,
        (initSequence env env.configs { w with appInstance := some env.newApp }).state,
        (initSequence env env.configs { w with appInstance := some env.newApp }).trace⟩ := by
  have h0 : NewApp env w = Eff.seq (initSequence env env.configs) (fun _ => Eff.ret none)
      { w with appInstance := some env.newApp } := rfl
  rw [h0]
  rcases h : initSequence env env.configs { w with appInstance := some env.newApp } with ⟨r, s1, t1⟩
  cases r with
  | error e => rw [Eff.seq_error h]; rfl
  | ok a => rw [Eff.seq_ok h]; simp [Eff.ret, Except.map]

/-- After `NewApp`, whether it returned or panicked in the sequence, the slot
of a feature the sequence skips is nil and its constructor was not called. -/
theorem NewApp_keeps (env : Env) (w : World) (s : Slot)
    (hs : s = .mongo ∨ s = .meilisearch ∨ s = .mailer ∨ s = .emqx)
    (hmongo : s = .mongo → env.configs.Features.MongoDBEnabled = false)
    (hsearch : s = .meilisearch → env.configs.Features.MeilisearchEnabled = false)
    (hmailer : s = .mailer → env.configs.Features.MailerEnabled = false) :
    World.empty s (NewApp env w).state ∧ Event.construct s ∉ (NewApp env w).trace := by
  rw [NewApp_eq]
  have h := initSequence_keeps env env.configs s hs hmongo hsearch hmailer
    { w with appInstance := some env.newApp } ⟨env.newApp, rfl, by cases s <;> rfl⟩
  exact ⟨h.1, fun hmem => h.2 _ hmem rfl⟩

/-! ## What a returned `NewApp` leaves -/

theorem World.runningIs_lift (b : Bool) (w : World) (hw : World.runningIs b w) :
    ∃ app, w.appInstance = some app ∧ (fun _ => True) app.container ∧
      ∀ c, (fun _ => True) c →
        World.runningIs b { w with appInstance := some { app with container := c } } := by
  obtain ⟨app, happ, hr⟩ := hw
  exact ⟨app, happ, True.intro, fun c _ => ⟨_, rfl, hr⟩⟩

/-- The initialization sequence does not touch the running flag. -/
theorem initSequence_running (env : Env) (configs : GoeConfig) (b : Bool) :
    Keeps (World.runningIs b) (fun _ => True) (initSequence env configs) := by
  unfold initSequence
  repeat' first
    | exact Keeps.pure _
    | exact Keeps.onContainer (World.runningIs_lift b) (Keeps.trivial _)
    | refine Keeps.seq ?_ (fun _ => ?_)
    | split

/-- When `InitFiber` returns, the listener slot is filled. -/
theorem InitFiber_ensures (env : Env) :
    Ensures (onContainer (Container.InitFiber env)) World.hasFiber := by
  intro w a h
  cases happ : w.appInstance with
  | none => simp [onContainer, happ] at h
  | some app =>
    cases hfb : env.NewGoeFiber app.container.appConfig with
    | none =>
      simp [onContainer, happ, Container.InitFiber, Eff.seq, Eff.read, Eff.emit, hfb,
        loggerPanic, Eff.abort] at h
    | some fb =>
      simp [onContainer, happ, Container.InitFiber, Eff.seq, Eff.read, Eff.emit, hfb,
        Eff.update, World.hasFiber]

/-- When the initialization sequence returns, the listener slot is filled. -/
theorem initSequence_ensures (env : Env) (configs : GoeConfig) :
    Ensures (initSequence env configs) World.hasFiber := by
  unfold initSequence
  exact Ensures.seq_right fun _ => Ensures.seq_right fun _ => Ensures.seq_right fun _ =>
    Ensures.seq_right fun _ => Ensures.seq_right fun _ => Ensures.seq_right fun _ =>
      InitFiber_ensures env

/-- When `NewApp` returns, it returns nil, the app is set and not running, and
its listener slot is filled. -/
theorem NewApp_returned (env : Env) (w : World) (e : GoError)
    (h : (NewApp env w).result = .ok e) :
    e = none ∧ ∃ app fb, (NewApp env w).state.appInstance = some app ∧ app.running = false ∧
      app.container.fiber = some fb := by
  rw [NewApp_eq] at h ⊢
  simp only at h ⊢
  cases hr : (initSequence env env.configs { w with appInstance := some env.newApp }).result with
  | error x => rw [hr] at h; cases h
  | ok u =>
    rw [hr] at h
    have he : e = none := by cases h; rfl
    obtain ⟨app, fb, happ, hfb⟩ := initSequence_ensures env env.configs _ u hr
    obtain ⟨app2, happ2, hrun⟩ := (initSequence_running env env.configs false
      { w with appInstance := some env.newApp } ⟨env.newApp, rfl, rfl⟩).1
    rw [happ] at happ2
    cases happ2
    exact ⟨he, app, fb, happ, hrun, hfb⟩

/-! ## A valid configuration -/

theorem Has.mono {cfg : GoeConfig} {S T : Slot → Prop} {c : Container} (h : ∀ s, T s → S s)
    (hc : Has cfg S c) : Has cfg T c :=
  ⟨hc.1, fun s hs => hc.2 s (h s hs)⟩

theorem Triple.post {σ α : Type} {P Q R : σ → Prop} {m : Eff σ α} (h : Triple P m Q)
    (hq : ∀ x, Q x → R x) : Triple P m R :=
  fun x hx => ⟨(h x hx).1, hq _ (h x hx).2⟩

theorem Triple.liftContainer {α : Type} {P Q : Container → Prop} {m : Eff Container α}
    (h : Triple P m Q) : Triple (World.container P) (onContainer m) (World.container Q) := by
  rintro w ⟨app, happ, hc⟩
  obtain ⟨⟨a, ha⟩, hq⟩ := h app.container hc
  simp only [Goe.onContainer, happ]
  exact ⟨⟨a, ha⟩, _, rfl, hq⟩

/-- A method that returns after filling the slot `t` and touching no other
slot extends the set of filled slots by `t`. -/
theorem Has.fill {cfg : GoeConfig} {S : Slot → Prop} {c c1 : Container} (t : Slot)
    (hc : Has cfg S c) (hcfg : c1.appConfig = c.appConfig) (ht : c1.nonNil t = true)
    (hrest : ∀ s, s ≠ t → c1.nonNil s = c.nonNil s) :
    Has cfg (fun s => S s ∨ s = t) c1 := by
  refine ⟨hcfg.trans hc.1, fun s hs => ?_⟩
  by_cases hst : s = t
  · rw [hst]; exact ht
  · rcases hs with hs | hs
    · rw [hrest s hst]; exact hc.2 s hs
    · exact absurd hs hst

theorem InitMongo_total (env : Env) (cfg : GoeConfig) (S : Slot → Prop)
    (h : ∃ mdb, env.NewGoeMongoDB cfg = .ok mdb) :
    Triple (Has cfg S) (Container.InitMongo env) (Has cfg fun s => S s ∨ s = .mongo) := by
  intro c hc
  obtain ⟨mdb, hm⟩ := h
  have hrun : Container.InitMongo env c =
      ⟨.ok (), { c with mongo := some mdb }, [.construct .mongo]⟩ := by
    simp [Container.InitMongo, Eff.seq, Eff.read, Eff.emit, Eff.update, hc.1, hm]
  rw [hrun]
  exact ⟨⟨(), rfl⟩, Has.fill .mongo hc rfl rfl fun s hs => by cases s <;> first | rfl | exact absurd rfl hs⟩

theorem InitQueue_total (env : Env) (cfg : GoeConfig) (S : Slot → Prop)
    (hhost : cfg.Redis.Host ≠ "") (hport : cfg.Redis.Port ≠ 0)
    (h : ∃ q, env.NewGoeQueue cfg = .ok q) :
    Triple (Has cfg S) (Container.InitQueue env) (Has cfg fun s => S s ∨ s = .queue) := by
  intro c hc
  obtain ⟨q, hq⟩ := h
  have hrun : Container.InitQueue env c =
      ⟨.ok (), { c with queue := some q }, [.construct .queue]⟩ := by
    simp [Container.InitQueue, Eff.seq, Eff.read, Eff.emit, Eff.update, hc.1, hq, hhost, hport]
  rw [hrun]
  exact ⟨⟨(), rfl⟩, Has.fill .queue hc rfl rfl fun s hs => by cases s <;> first | rfl | exact absurd rfl hs⟩

theorem InitCron_total (env : Env) (cfg : GoeConfig) (S : Slot → Prop)
    (h : ∃ mod, env.NewCronJobService = .ok mod) :
    Triple (Has cfg S) (Container.InitCron env) (Has cfg fun s => S s ∨ s = .cron) := by
  intro c hc
  obtain ⟨mod, hm⟩ := h
  have hrun : Container.InitCron env c =
      ⟨.ok (), { c with cron := some mod }, [.construct .cron]⟩ := by
    simp [Container.InitCron, Eff.seq, Eff.emit, Eff.update, hm]
  rw [hrun]
  exact ⟨⟨(), rfl⟩, Has.fill .cron hc rfl rfl fun s hs => by cases s <;> first | rfl | exact absurd rfl hs⟩

theorem InitCache_total (env : Env) (cfg : GoeConfig) (S : Slot → Prop)
    (hhost : cfg.Redis.Host ≠ "") (hport : cfg.Redis.Port ≠ 0)
    (h : ∃ r, env.NewRedisCache cfg.Redis.Host cfg.Redis.Port cfg.Redis.Username
      cfg.Redis.Password = some r) :
    Triple (Has cfg S) (Container.InitCache env) (Has cfg fun s => S s ∨ s = .cache) := by
  intro c hc
  obtain ⟨r, hr⟩ := h
  have hrun : Container.InitCache env c =
      ⟨.ok (), { c with cache := some r }, [.construct .cache]⟩ := by
    simp [Container.InitCache, Eff.seq, Eff.read, Eff.emit, Eff.update, hc.1, hr, hhost, hport]
  rw [hrun]
  exact ⟨⟨(), rfl⟩, Has.fill .cache hc rfl rfl fun s hs => by cases s <;> first | rfl | exact absurd rfl hs⟩

theorem InitFiber_total (env : Env) (cfg : GoeConfig) (S : Slot → Prop)
    (h : ∃ fb, env.NewGoeFiber cfg = some fb) :
    Triple (Has cfg S) (Container.InitFiber env) (Has cfg fun s => S s ∨ s = .fiber) := by
  intro c hc
  obtain ⟨fb, hfb⟩ := h
  have hrun : Container.InitFiber env c =
      ⟨.ok (), { c with fiber := some ⟨fb.handle, fb.onShutdown ++ [.containerClose],
          fb.onListen ++ [.goLive]⟩ }, [.construct .fiber]⟩ := by
    simp [Container.InitFiber, Eff.seq, Eff.read, Eff.emit, Eff.update, hc.1, hfb]
  rw [hrun]
  exact ⟨⟨(), rfl⟩, Has.fill .fiber hc rfl rfl fun s hs => by cases s <;> first | rfl | exact absurd rfl hs⟩

theorem InitMailer_total (env : Env) (cfg : GoeConfig) (S : Slot → Prop)
    (hflag : cfg.Features.MailerEnabled = true) (hqueue : S .queue)
    (h : ∀ q, ∃ m, env.NewGoeMailer cfg q = some m) :
    Triple (Has cfg S) (Container.InitMailer env) (Has cfg fun s => S s ∨ s = .mailer) := by
  intro c hc
  have hq := hc.2 .queue hqueue
  cases hcq : c.queue with
  | none => simp [Container.nonNil, hcq] at hq
  | some q =>
    obtain ⟨m, hm⟩ := h q
    have hrun : Container.InitMailer env c =
        ⟨.ok (), { c with mailer := some m }, [.construct .mailer]⟩ := by
      simp [Container.InitMailer, Eff.seq, Eff.read, Eff.emit, Eff.update, hc.1, hflag, hcq, hm]
    rw [hrun]
    exact ⟨⟨(), rfl⟩, Has.fill .mailer hc rfl rfl fun s hs => by cases s <;> first | rfl | exact absurd rfl hs⟩

theorem InitMeilisearch_total (env : Env) (cfg : GoeConfig) (S : Slot → Prop)
    (hflag : cfg.Features.MeilisearchEnabled = true) (hmongo : S .mongo)
    (hkey : cfg.Meilisearch.ApiKey ≠ "") (hend : cfg.Meilisearch.Endpoint ≠ "")
    (h : ∃ ms, env.NewMSearch cfg.Meilisearch.Endpoint cfg.Meilisearch.ApiKey = some ms)
    (hsync : cfg.Features.SearchDBSyncEnabled = true → ∀ mdb ms, env.SetMeilisearch mdb ms = none) :
    Triple (Has cfg S) (Container.InitMeilisearch env)
      (Has cfg fun s => S s ∨ s = .meilisearch) := by
  intro c hc
  have hm := hc.2 .mongo hmongo
  obtain ⟨ms, hms⟩ := h
  cases hcm : c.mongo with
  | none => simp [Container.nonNil, hcm] at hm
  | some mdb =>
    have hrun : (Container.InitMeilisearch env c).result = .ok () ∧
        (Container.InitMeilisearch env c).state = { c with meilisearch := some ms } := by
      cases hs : cfg.Features.SearchDBSyncEnabled with
      | false =>
        simp [Container.InitMeilisearch, Eff.seq, Eff.read, Eff.emit, Eff.update, hc.1, hflag,
          hkey, hend, hms, hs]
      | true =>
        simp [Container.InitMeilisearch, Eff.seq, Eff.read, Eff.emit, Eff.update, hc.1, hflag,
          hkey, hend, hms, hs, hcm, hsync hs mdb ms]
    rw [hrun.2]
    exact ⟨⟨(), hrun.1⟩, Has.fill .meilisearch hc rfl rfl fun s hs => by cases s <;> first | rfl | exact absurd rfl hs⟩

/-- With a valid configuration the initialization sequence returns, with every
slot of `filled` filled. -/
theorem initSequence_total (env : Env) (hv : env.Valid) :
    Triple (World.container (Has env.configs fun _ => False)) (initSequence env env.configs)
      (World.container (Has env.configs (filled env.configs))) := by
  unfold initSequence filled
  refine Triple.andThen (R := World.container (Has env.configs fun s =>
      False ∨ s = .mongo ∧ env.configs.Features.MongoDBEnabled = true)) ?_ fun _ =>
    Triple.andThen (R := World.container (Has env.configs fun s =>
      (False ∨ s = .mongo ∧ env.configs.Features.MongoDBEnabled = true) ∨
        s = .meilisearch ∧ env.configs.Features.MeilisearchEnabled = true ∧
          env.configs.Features.MongoDBEnabled = true)) ?_ fun _ =>
    Triple.andThen (Triple.liftContainer
      (InitQueue_total env _ _ hv.redisHost hv.redisPort hv.queue)) fun _ =>
    Triple.andThen (Triple.liftContainer (InitCron_total env _ _ hv.cron)) fun _ =>
    Triple.andThen (Triple.liftContainer
      (InitCache_total env _ _ hv.redisHost hv.redisPort hv.cache)) fun _ =>
    Triple.andThen (R := World.container (Has env.configs fun s =>
      (((((False ∨ s = .mongo ∧ env.configs.Features.MongoDBEnabled = true) ∨
        s = .meilisearch ∧ env.configs.Features.MeilisearchEnabled = true ∧
          env.configs.Features.MongoDBEnabled = true) ∨
        s = .queue) ∨ s = .cron) ∨ s = .cache) ∨
        s = .mailer ∧ env.configs.Features.MailerEnabled = true)) ?_ fun _ =>
    Triple.liftContainer (InitFiber_total env _ _ hv.fiber)
  · split
    · next hf =>
      refine (Triple.liftContainer (InitMongo_total env _ _ (hv.mongo hf))).post ?_
      rintro w ⟨app, happ, hc⟩
      exact ⟨app, happ, hc.mono fun s hs => by
        rcases hs with hs | hs
        · exact Or.inl hs
        · exact Or.inr hs.1⟩
    · next hf =>
      refine Triple.skip _ ?_
      rintro w ⟨app, happ, hc⟩
      exact ⟨app, happ, hc.mono fun s hs => by
        rcases hs with hs | hs
        · exact hs
        · exact absurd hs.2 hf⟩
  · split
    · next hf =>
      simp only [Bool.and_eq_true] at hf
      refine (Triple.liftContainer (InitMeilisearch_total env _ _ hf.1 (Or.inr ⟨rfl, hf.2⟩)
        (hv.searchKey hf.1) (hv.searchEndpoint hf.1) (hv.search hf.1) hv.searchSync)).post ?_
      rintro w ⟨app, happ, hc⟩
      exact ⟨app, happ, hc.mono fun s hs => by
        rcases hs with hs | hs
        · exact Or.inl hs
        · exact Or.inr hs.1⟩
    · next hf =>
      simp only [Bool.and_eq_true] at hf
      refine Triple.skip _ ?_
      rintro w ⟨app, happ, hc⟩
      exact ⟨app, happ, hc.mono fun s hs => by
        rcases hs with hs | hs
        · exact hs
        · exact absurd hs.2 hf⟩
  · split
    · next hf =>
      refine (Triple.liftContainer (InitMailer_total env _ _ hf
        (Or.inl (Or.inl (Or.inr rfl))) (hv.mailer hf))).post ?_
      rintro w ⟨app, happ, hc⟩
      exact ⟨app, happ, hc.mono fun s hs => by
        rcases hs with hs | hs
        · exact Or.inl hs
        · exact Or.inr hs.1⟩
    · next hf =>
      refine Triple.skip _ ?_
      rintro w ⟨app, happ, hc⟩
      exact ⟨app, happ, hc.mono fun s hs => by
        rcases hs with hs | hs
        · exact hs
        · exact absurd hs.2 hf⟩

/-- With a valid configuration `NewApp` returns nil and leaves the app set,
with every slot of `filled` filled. -/
theorem NewApp_total (env : Env) (hv : env.Valid) (w : World) :
    (NewApp env w).result = .ok none ∧
      ∃ app, (NewApp env w).state.appInstance = some app ∧
        ∀ s, filled env.configs s → app.container.nonNil s = true := by
  rw [NewApp_eq]
  obtain ⟨⟨a, ha⟩, app, happ, hc⟩ := initSequence_total env hv
    { w with appInstance := some env.newApp } ⟨env.newApp, rfl, rfl, fun _ h => h.elim⟩
  exact ⟨by simp [ha, Except.map], app, happ, hc.2⟩

/-! ## The signal hook and the shutdown handlers -/

/-- C1: called on an initialized app whose running flag is true, `Run` returns
the error "app is already running" and does nothing else: it produces no event
(no listener goroutine, no `signal.Notify`) and leaves the package state, with
the running flag and the container, as it was. -/
theorem Run_already_running (w : World) (app : App) (hw : w.appInstance = some app)
    (hr : app.running = true) :
    ∀ env, Run env w = ⟨.ok (some "app is already running"), w, []⟩ := by
  intro env
  simp [Run, Eff.seq, Eff.read, hw, hr]

/-- Witness of C1: the state in which a first `Run` waits for its signal. -/
theorem Run_already_running_witness :
    (∃ app, waitingWorld.appInstance = some app ∧ app.running = true) ∧
      Run fullEnv waitingWorld = ⟨.ok (some "app is already running"), waitingWorld, []⟩ :=
  ⟨⟨_, rfl, rfl⟩, Run_already_running waitingWorld _ rfl rfl fullEnv⟩

/-- Counterexample to C2: after `NewApp`, `Run` starts the listener, sets the
running flag, receives SIGTERM, runs its shutdown callback (which clears the
flag and shuts the listener down, the container being closed by the shutdown
handler of `InitFiber`) and returns nil; a call of `AddShutdownHook` made after
that returns nil and registers its callback, although `Run` had transitioned
the app to running before. -/
theorem AddShutdownHook_accepted_after_Run :
    (NewApp fullEnv (freshWorld [.SIGTERM])).result = .ok none ∧
    (Run fullEnv (NewApp fullEnv (freshWorld [.SIGTERM])).state).result = .ok none ∧
    (Run fullEnv (NewApp fullEnv (freshWorld [.SIGTERM])).state).trace =
      [.goListen "3000", .signalNotify .SIGINT, .signalNotify .SIGTERM, .signalRecv .SIGTERM,
        .signalStop, .invoke 0, .shutdownWithTimeout 5,
        .logInfo "Shutting down the server...",
        .close .mongo, .close .queue, .close .cache, .close .cron,
        .logInfo "Server has shutdown successfully!"] ∧
    (AddShutdownHook [7]
        (Run fullEnv (NewApp fullEnv (freshWorld [.SIGTERM])).state).state).result =
      .ok none ∧
    ((AddShutdownHook [7]
        (Run fullEnv (NewApp fullEnv (freshWorld [.SIGTERM])).state).state).state.appInstance.bind
      fun a => a.container.fiber.map fun fb => fb.onShutdown) =
      some [.containerClose, .user 7] :=
  ⟨rfl, rfl, rfl, rfl, rfl⟩

/-- C2, amended: `AddShutdownHook` returns nil and appends the given callbacks
to the shutdown hooks of the listener for every call made after `NewApp` has
returned and before `Run`; while the running flag is true, which `Run` sets
before it waits for the termination signal (it then blocks while nothing is
delivered, and the process ends when a signal it is not notified of is
delivered), it returns the "already running" error and registers nothing;
whenever the flag is false and the listener slot is filled, also after `Run`
has cleared the flag again, the call is accepted. -/
theorem AddShutdownHook_guard (hookHandlers : List Nat) :
    (∀ env w e, (NewApp env w).result = .ok e →
      ∃ app fb, (NewApp env w).state.appInstance = some app ∧ app.container.fiber = some fb ∧
        AddShutdownHook hookHandlers (NewApp env w).state =
          ⟨.ok none,
            { (NewApp env w).state with
              appInstance := some { app with container := { app.container with
                fiber := some ⟨fb.handle, fb.onShutdown ++ hookHandlers.map .user,
                  fb.onListen⟩ } } },
            []⟩) ∧
    (∀ w app, w.appInstance = some app → app.running = true →
      AddShutdownHook hookHandlers w =
        ⟨.ok (some "app is already running, shutdown hook must be added before calling Run()"),
          w, []⟩) ∧
    (∀ env w app, w.appInstance = some app → app.running = false →
      (∀ s ∈ w.pending, s ∉ [Signal.SIGINT, Signal.SIGTERM]) →
      (Run env w).result =
          .error (match w.pending with
            | [] => Abort.blocked
            | s :: _ => Abort.killed s) ∧
        (Run env w).state = { w with appInstance := some { app with running := true } }) ∧
    (∀ w app fb, w.appInstance = some app → app.running = false →
      app.container.fiber = some fb →
      AddShutdownHook hookHandlers w =
        ⟨.ok none,
          { w with
            appInstance := some { app with container := { app.container with
              fiber := some ⟨fb.handle, fb.onShutdown ++ hookHandlers.map .user,
                fb.onListen⟩ } } },
          []⟩) := by
  have hacc : ∀ (w : World) (app : App) (fb : GoeFiber), w.appInstance = some app →
      app.running = false → app.container.fiber = some fb →
      AddShutdownHook hookHandlers w =
        ⟨.ok none,
          { w with
            appInstance := some { app with container := { app.container with
              fiber := some ⟨fb.handle, fb.onShutdown ++ hookHandlers.map .user,
                fb.onListen⟩ } } },
          []⟩ := by
    intro w app fb hw hr hfb
    simp [AddShutdownHook, Eff.seq, Eff.read, Eff.update, hw, hr, hfb]
  refine ⟨?_, ?_, ?_, hacc⟩
  · intro env w e h
    obtain ⟨_, app, fb, happ, hrun, hfb⟩ := NewApp_returned env w e h
    exact ⟨app, fb, happ, hfb, hacc _ app fb happ hrun hfb⟩
  · intro w app hw hr
    simp [AddShutdownHook, Eff.seq, Eff.read, hw, hr]
  · intro env w app hw hr hsig
    rcases w with ⟨inst, pending⟩
    simp only at hw
    subst hw
    cases pending with
    | nil =>
      simp [Run, Eff.seq, Eff.read, Eff.update, Eff.emit, Eff.abort, setRunning,
        newShutdownHook, sdhook.WithSignals, sdhook.Close, hr, receive]
    | cons s rest =>
      have hs : s ∉ [Signal.SIGINT, Signal.SIGTERM] := hsig s (List.mem_cons_self _ _)
      simp only [List.mem_cons, List.mem_singleton, List.not_mem_nil, or_false, not_or] at hs
      simp [Run, Eff.seq, Eff.read, Eff.update, Eff.emit, Eff.abort, setRunning,
        newShutdownHook, sdhook.WithSignals, sdhook.Close, hr, receive, hs]

/-- Witness of C2, amended: the four parts at `NewApp` with every feature on,
at the state in which `Run` waits, and at the state before `Run`. -/
theorem AddShutdownHook_guard_witness :
    (∃ app fb, (NewApp fullEnv (freshWorld [])).state.appInstance = some app ∧
      app.container.fiber = some fb ∧
      AddShutdownHook [7] (NewApp fullEnv (freshWorld [])).state =
        ⟨.ok none,
          { (NewApp fullEnv (freshWorld [])).state with
            appInstance := some { app with container := { app.container with
              fiber := some ⟨fb.handle, fb.onShutdown ++ [7].map .user, fb.onListen⟩ } } },
          []⟩) ∧
    AddShutdownHook [7] waitingWorld =
      ⟨.ok (some "app is already running, shutdown hook must be added before calling Run()"),
        waitingWorld, []⟩ ∧
    (Run fullEnv (NewApp fullEnv (freshWorld [])).state).result = .error .blocked ∧
    (Run fullEnv (NewApp fullEnv (freshWorld [.SIGHUP])).state).result =
      .error (.killed .SIGHUP) ∧
    (AddShutdownHook [7]
        (Run fullEnv (NewApp fullEnv (freshWorld [.SIGINT])).state).state).result =
      .ok none :=
  ⟨(AddShutdownHook_guard [7]).1 fullEnv (freshWorld []) none rfl,
    (AddShutdownHook_guard [7]).2.1 waitingWorld _ rfl rfl,
    ((AddShutdownHook_guard [7]).2.2.1 fullEnv (NewApp fullEnv (freshWorld [])).state _ rfl rfl
      (by decide)).1,
    ((AddShutdownHook_guard [7]).2.2.1 fullEnv (NewApp fullEnv (freshWorld [.SIGHUP])).state _
      rfl rfl (by decide)).1,
    congrArg Step.result ((AddShutdownHook_guard [7]).2.2.2
      (Run fullEnv (NewApp fullEnv (freshWorld [.SIGINT])).state).state _ _ rfl rfl rfl)⟩

/-- Counterexample to C3: with no redis host configured `NewApp` panics in
`InitQueue` and so never completes, yet `appInstance` is already set, and the
accessors called then return a nil handle without any panic; the same holds in
the state the initialization sequence starts from. -/
theorem accessor_nil_before_NewApp_completed :
    (NewApp noRedisEnv (freshWorld [])).result =
      .error (.panic "Failed to initialize Redis MQ: missing required redis configuration") ∧
    UseMQ (NewApp noRedisEnv (freshWorld [])).state =
      ⟨.ok none, (NewApp noRedisEnv (freshWorld [])).state, []⟩ ∧
    UseMailer (NewApp noRedisEnv (freshWorld [])).state =
      ⟨.ok none, (NewApp noRedisEnv (freshWorld [])).state, []⟩ ∧
    (UseDB { freshWorld [] with appInstance := some noRedisEnv.newApp }).result = .ok none :=
  ⟨rfl, rfl, rfl, rfl⟩

/-- C3, amended: for every accessor, in every state in which `appInstance` is
still nil (before `NewApp` has stored the app) the call panics with the "must
initialize App first" message, changing nothing; in every state in which
`appInstance` is set, also while or after the initialization sequence of
`NewApp` did not complete, the call returns the content of its slot of the
container, nil for a slot that is not filled, without a panic. -/
theorem accessor_guard (w : World) :
    (w.appInstance = none →
      UseDB w = ⟨.error (.panic "must initialize App first, by calling NewApp() method"), w, []⟩ ∧
      UseCron w =
        ⟨.error (.panic "must initialize App first, by calling NewApp() method"), w, []⟩ ∧
      UseLog w = ⟨.error (.panic "must initialize App first, by calling NewApp() method"), w, []⟩ ∧
      UseCfg w = ⟨.error (.panic "must initialize App first, by calling NewApp() method"), w, []⟩ ∧
      UseMQ w = ⟨.error (.panic "must initialize App first, by calling NewApp() method"), w, []⟩ ∧
      UseCache w =
        ⟨.error (.panic "must initialize App first, by calling NewApp() method"), w, []⟩ ∧
      UseSearch w =
        ⟨.error (.panic "must initialize App first, by calling NewApp() method"), w, []⟩ ∧
      UseMailer w =
        ⟨.error (.panic "must initialize App first, by calling NewApp() method"), w, []⟩ ∧
      UseFiber w =
        ⟨.error (.panic "must initialize App first, by calling NewApp() method"), w, []⟩ ∧
      UseEMQX w =
        ⟨.error (.panic "must initialize App first, by calling NewApp() method"), w, []⟩) ∧
    (∀ app, w.appInstance = some app →
      UseDB w = ⟨.ok app.container.mongo, w, []⟩ ∧
      UseCron w = ⟨.ok app.container.cron, w, []⟩ ∧
      UseLog w = ⟨.ok (some app.container.logger), w, []⟩ ∧
      UseCfg w = ⟨.ok (some app.container.config), w, []⟩ ∧
      UseMQ w = ⟨.ok app.container.queue, w, []⟩ ∧
      UseCache w = ⟨.ok app.container.cache, w, []⟩ ∧
      UseSearch w = ⟨.ok app.container.meilisearch, w, []⟩ ∧
      UseMailer w = ⟨.ok app.container.mailer, w, []⟩ ∧
      UseFiber w = ⟨.ok app.container.fiber, w, []⟩ ∧
      UseEMQX w = ⟨.ok app.container.emqx, w, []⟩) := by
  constructor
  · intro hw
    simp [UseDB, UseCron, UseLog, UseCfg, UseMQ, UseCache, UseSearch, UseMailer, UseFiber,
      UseEMQX, mustInit, Eff.seq, Eff.read, goPanic, Eff.abort, hw]
  · intro app hw
    simp [UseDB, UseCron, UseLog, UseCfg, UseMQ, UseCache, UseSearch, UseMailer, UseFiber,
      UseEMQX, mustInit, Eff.seq, Eff.read, hw]

/-- Witness of C3, amended: `UseMailer` before `NewApp`, and `UseMQ` and
`UseEMQX` while `Run` waits after `NewApp` with every feature on. -/
theorem accessor_guard_witness :
    UseMailer (freshWorld []) =
      ⟨.error (.panic "must initialize App first, by calling NewApp() method"),
        freshWorld [], []⟩ ∧
    UseMQ waitingWorld = ⟨.ok (some 13), waitingWorld, []⟩ ∧
    UseEMQX waitingWorld = ⟨.ok none, waitingWorld, []⟩ :=
  ⟨((accessor_guard (freshWorld [])).1 rfl).2.2.2.2.2.2.2.1,
    ((accessor_guard waitingWorld).2 _ rfl).2.2.2.2.1,
    ((accessor_guard waitingWorld).2 _ rfl).2.2.2.2.2.2.2.2.2⟩

/-- C4: for every configuration and each of the four feature flags (document
store, search, mailer, broker) that is false in it, after the initialization
sequence of `NewApp` the accessor of that subsystem returns the nil handle, and
the constructor of the subsystem was not called during the sequence. -/
theorem NewApp_disabled_features (env : Env) (w : World) :
    (env.configs.Features.MongoDBEnabled = false →
      (UseDB (NewApp env w).state).result = .ok none ∧
        Event.construct .mongo ∉ (NewApp env w).trace) ∧
    (env.configs.Features.MeilisearchEnabled = false →
      (UseSearch (NewApp env w).state).result = .ok none ∧
        Event.construct .meilisearch ∉ (NewApp env w).trace) ∧
    (env.configs.Features.MailerEnabled = false →
      (UseMailer (NewApp env w).state).result = .ok none ∧
        Event.construct .mailer ∉ (NewApp env w).trace) ∧
    (env.configs.Features.EMQXBrokerEnabled = false →
      (UseEMQX (NewApp env w).state).result = .ok none ∧
        Event.construct .emqx ∉ (NewApp env w).trace) := by
  refine ⟨fun hf => ?_, fun hf => ?_, fun hf => ?_, fun _ => ?_⟩
  · obtain ⟨⟨app, happ, hc⟩, ht⟩ := NewApp_keeps env w .mongo (by simp) (fun _ => hf)
      (by simp) (by simp)
    refine ⟨?_, ht⟩
    cases hm : app.container.mongo with
    | none => simp [UseDB, mustInit, Eff.seq, Eff.read, happ, hm]
    | some x => simp [Container.nonNil, hm] at hc
  · obtain ⟨⟨app, happ, hc⟩, ht⟩ := NewApp_keeps env w .meilisearch (by simp) (by simp)
      (fun _ => hf) (by simp)
    refine ⟨?_, ht⟩
    cases hm : app.container.meilisearch with
    | none => simp [UseSearch, mustInit, Eff.seq, Eff.read, happ, hm]
    | some x => simp [Container.nonNil, hm] at hc
  · obtain ⟨⟨app, happ, hc⟩, ht⟩ := NewApp_keeps env w .mailer (by simp) (by simp) (by simp)
      (fun _ => hf)
    refine ⟨?_, ht⟩
    cases hm : app.container.mailer with
    | none => simp [UseMailer, mustInit, Eff.seq, Eff.read, happ, hm]
    | some x => simp [Container.nonNil, hm] at hc
  · obtain ⟨⟨app, happ, hc⟩, ht⟩ := NewApp_keeps env w .emqx (by simp) (by simp) (by simp)
      (by simp)
    refine ⟨?_, ht⟩
    cases hm : app.container.emqx with
    | none => simp [UseEMQX, mustInit, Eff.seq, Eff.read, happ, hm]
    | some x => simp [Container.nonNil, hm] at hc

/-- Witness of C4: the configuration with all four flags false. -/
theorem NewApp_disabled_features_witness :
    ((UseDB (NewApp plainEnv (freshWorld [])).state).result = .ok none ∧
      Event.construct .mongo ∉ (NewApp plainEnv (freshWorld [])).trace) ∧
    ((UseSearch (NewApp plainEnv (freshWorld [])).state).result = .ok none ∧
      Event.construct .meilisearch ∉ (NewApp plainEnv (freshWorld [])).trace) ∧
    ((UseMailer (NewApp plainEnv (freshWorld [])).state).result = .ok none ∧
      Event.construct .mailer ∉ (NewApp plainEnv (freshWorld [])).trace) ∧
    ((UseEMQX (NewApp plainEnv (freshWorld [])).state).result = .ok none ∧
      Event.construct .emqx ∉ (NewApp plainEnv (freshWorld [])).trace) :=
  ⟨(NewApp_disabled_features plainEnv (freshWorld [])).1 rfl,
    (NewApp_disabled_features plainEnv (freshWorld [])).2.1 rfl,
    (NewApp_disabled_features plainEnv (freshWorld [])).2.2.1 rfl,
    (NewApp_disabled_features plainEnv (freshWorld [])).2.2.2 rfl⟩

/-- The sample environment is valid whatever the flags, with redis configured. -/
theorem sampleEnv_valid (mongo search sync mailer broker : Bool) :
    (sampleEnv (sampleModule mongo search sync mailer broker "localhost" 6379)).Valid where
  redisHost := by show "localhost" ≠ ""; decide
  redisPort := by show (6379 : Int) ≠ 0; decide
  queue := ⟨13, rfl⟩
  cron := ⟨16, rfl⟩
  cache := ⟨12, rfl⟩
  fiber := ⟨_, rfl⟩
  mongo := fun _ => ⟨10, rfl⟩
  searchKey := fun _ => by show "masterKey" ≠ ""; decide
  searchEndpoint := fun _ => by show "http://localhost:7700" ≠ ""; decide
  search := fun _ => ⟨11, rfl⟩
  searchSync := fun _ _ _ => rfl
  mailer := fun _ _ => ⟨14, rfl⟩

/-- Counterexample to C5: a valid configuration with the search flag and the
broker flag true (and the document-store flag false); `NewApp` returns nil, and
both `UseSearch` and `UseEMQX` return the nil handle, no constructor of either
having been called. -/
theorem NewApp_enabled_feature_nil :
    searchOnlyEnv.Valid ∧
    searchOnlyEnv.configs.Features.MeilisearchEnabled = true ∧
    searchOnlyEnv.configs.Features.EMQXBrokerEnabled = true ∧
    (NewApp searchOnlyEnv (freshWorld [])).result = .ok none ∧
    (UseSearch (NewApp searchOnlyEnv (freshWorld [])).state).result = .ok none ∧
    (UseEMQX (NewApp searchOnlyEnv (freshWorld [])).state).result = .ok none ∧
    (NewApp searchOnlyEnv (freshWorld [])).trace =
      [.construct .queue, .construct .cron, .construct .cache, .construct .fiber] :=
  ⟨sampleEnv_valid false true false false true, rfl, rfl, rfl, rfl, rfl, rfl⟩

/-- C5, amended: for every valid configuration `NewApp` returns nil, and
afterwards `UseDB` returns a non-nil handle when the document-store flag is
true, `UseMailer` returns a non-nil handle when the mailer flag is true, and
`UseSearch` returns a non-nil handle when the search flag and the
document-store flag are both true. -/
theorem NewApp_enabled_features (env : Env) (hv : env.Valid) (w : World) :
    (NewApp env w).result = .ok none ∧
    (env.configs.Features.MongoDBEnabled = true →
      ∃ h, (UseDB (NewApp env w).state).result = .ok (some h)) ∧
    (env.configs.Features.MailerEnabled = true →
      ∃ h, (UseMailer (NewApp env w).state).result = .ok (some h)) ∧
    (env.configs.Features.MeilisearchEnabled = true →
      env.configs.Features.MongoDBEnabled = true →
      ∃ h, (UseSearch (NewApp env w).state).result = .ok (some h)) := by
  obtain ⟨hres, app, happ, hfill⟩ := NewApp_total env hv w
  refine ⟨hres, fun hf => ?_, fun hf => ?_, fun hs hf => ?_⟩
  · have hc := hfill .mongo (by simp [filled, hf])
    cases hm : app.container.mongo with
    | none => simp [Container.nonNil, hm] at hc
    | some x => exact ⟨x, by simp [UseDB, mustInit, Eff.seq, Eff.read, happ, hm]⟩
  · have hc := hfill .mailer (by simp [filled, hf])
    cases hm : app.container.mailer with
    | none => simp [Container.nonNil, hm] at hc
    | some x => exact ⟨x, by simp [UseMailer, mustInit, Eff.seq, Eff.read, happ, hm]⟩
  · have hc := hfill .meilisearch (by simp [filled, hf, hs])
    cases hm : app.container.meilisearch with
    | none => simp [Container.nonNil, hm] at hc
    | some x => exact ⟨x, by simp [UseSearch, mustInit, Eff.seq, Eff.read, happ, hm]⟩

/-- Witness of C5, amended: the valid configuration with every flag true. -/
theorem NewApp_enabled_features_witness :
    fullEnv.Valid ∧
    (NewApp fullEnv (freshWorld [])).result = .ok none ∧
    (∃ h, (UseDB (NewApp fullEnv (freshWorld [])).state).result = .ok (some h)) ∧
    (∃ h, (UseMailer (NewApp fullEnv (freshWorld [])).state).result = .ok (some h)) ∧
    (∃ h, (UseSearch (NewApp fullEnv (freshWorld [])).state).result = .ok (some h)) :=
  ⟨sampleEnv_valid true true true true true,
    (NewApp_enabled_features fullEnv (sampleEnv_valid true true true true true)
      (freshWorld [])).1,
    (NewApp_enabled_features fullEnv (sampleEnv_valid true true true true true)
      (freshWorld [])).2.1 rfl,
    (NewApp_enabled_features fullEnv (sampleEnv_valid true true true true true)
      (freshWorld [])).2.2.1 rfl,
    (NewApp_enabled_features fullEnv (sampleEnv_valid true true true true true)
      (freshWorld [])).2.2.2 rfl rfl⟩

/-- Counterexample to C6: on the container `NewApp` leaves with every feature
on, the search, mailer and listener slots hold non-nil handles, and
`Container.Close` calls close on the document store, the queue, the cache and
the scheduler only: no close is called on the three other non-nil slots. -/
theorem Close_skips_search_mailer_fiber :
    fullContainer.nonNil .meilisearch = true ∧
    fullContainer.nonNil .mailer = true ∧
    fullContainer.nonNil .fiber = true ∧
    (Container.Close fullEnv fullContainer).trace =
      [.close .mongo, .close .queue, .close .cache, .close .cron] ∧
    (Container.Close fullEnv fullContainer).trace.count (.close .meilisearch) = 0 :=
  ⟨rfl, rfl, rfl, rfl, rfl⟩

/-- C6, amended: for every container state, one call of `Container.Close`
invokes close exactly once on every slot among document store, queue, cache,
scheduler and broker that holds a non-nil handle, in this order, and on no
other slot: never on a nil slot, and never on the search client, the mailer or
the listener engine. -/
theorem Close_closes_handled_slots (env : Env) (c : Container) :
    (Container.Close env c).trace = (closedSlots.filter c.nonNil).map Event.close ∧
    ∀ s, (Container.Close env c).trace.count (.close s) =
      if s ∈ closedSlots ∧ c.nonNil s = true then 1 else 0 := by
  rcases c with ⟨cfg, lg, mongo, ms, q, ca, ma, fb, cr, em, ac⟩
  constructor
  · cases mongo <;> cases q <;> cases ca <;> cases cr <;> cases em <;> rfl
  · intro s
    cases mongo <;> cases q <;> cases ca <;> cases cr <;> cases em <;> cases s <;>
      cases ms <;> cases ma <;> cases fb <;> rfl

/-- C7: `Container.Close` never fails.  For every container state and whatever
the individual closes return, it returns nil, it leaves the container as it
was, and it calls close on every non-nil slot it handles; on a container in
which no subsystem was initialized it makes no call at all and returns nil. -/
theorem Close_never_fails (env : Env) (c : Container) :
    (Container.Close env c).result = .ok none ∧
    (Container.Close env c).state = c ∧
    (∀ s ∈ closedSlots, c.nonNil s = true → Event.close s ∈ (Container.Close env c).trace) ∧
    ∀ config logger appConfig,
      Container.Close env (NewContainer config logger appConfig) =
        ⟨.ok none, NewContainer config logger appConfig, []⟩ := by
  refine ⟨?_, ?_, ?_, fun _ _ _ => rfl⟩
  · rcases c with ⟨cfg, lg, mongo, ms, q, ca, ma, fb, cr, em, ac⟩
    cases mongo <;> cases q <;> cases ca <;> cases cr <;> cases em <;> rfl
  · rcases c with ⟨cfg, lg, mongo, ms, q, ca, ma, fb, cr, em, ac⟩
    cases mongo <;> cases q <;> cases ca <;> cases cr <;> cases em <;> rfl
  · intro s hs hc
    have htrace : (Container.Close env c).trace = (closedSlots.filter c.nonNil).map Event.close := by
      rcases c with ⟨cfg, lg, mongo, ms, q, ca, ma, fb, cr, em, ac⟩
      cases mongo <;> cases q <;> cases ca <;> cases cr <;> cases em <;> rfl
    rw [htrace]
    exact List.mem_map.mpr ⟨s, List.mem_filter.mpr ⟨hs, hc⟩, rfl⟩

/-- Witness of C7: every close returns an error, on the container with every
feature on; the scheduler, handled last, is still closed. -/
theorem Close_never_fails_witness :
    failingCloseEnv.closeResult .mongo 10 = some "close failed" ∧
    (Container.Close failingCloseEnv fullContainer).result = .ok none ∧
    Event.close .cron ∈ (Container.Close failingCloseEnv fullContainer).trace :=
  ⟨rfl, (Close_never_fails failingCloseEnv fullContainer).1,
    (Close_never_fails failingCloseEnv fullContainer).2.2.1 .cron (by decide) rfl⟩

/-- C9: for every container whose mailer flag is true and whose queue slot is
nil, `InitMailer` ends in a fatal error: it reports "Queue is required to
initialize mailer" and panics, it does not call the mailer constructor, it
leaves the container, and so a nil mailer slot, as it was, and nothing
sequenced after it runs, so that a `Run` that follows never sets the running
flag. -/
theorem InitMailer_requires_queue (env : Env) (c : Container)
    (hflag : c.appConfig.Features.MailerEnabled = true) (hq : c.queue = none) :
    Container.InitMailer env c =
      ⟨.error (.panic "Queue is required to initialize mailer"), c,
        [.logPanic "Queue is required to initialize mailer"]⟩ ∧
    Event.construct .mailer ∉ (Container.InitMailer env c).trace ∧
    (c.mailer = none → (Container.InitMailer env c).state.mailer = none) ∧
    ∀ w app, w.appInstance = some app → app.container = c →
      (onContainer (Container.InitMailer env) >>= fun _ => Run env) w =
        ⟨.error (.panic "Queue is required to initialize mailer"), w,
          [.logPanic "Queue is required to initialize mailer"]⟩ := by
  have hrun : Container.InitMailer env c =
      ⟨.error (.panic "Queue is required to initialize mailer"), c,
        [.logPanic "Queue is required to initialize mailer"]⟩ := by
    simp [Container.InitMailer, Eff.seq, Eff.read, hflag, hq, loggerPanic, Eff.emit, Eff.abort]
  refine ⟨hrun, by simp [hrun], fun hm => by simp [hrun, hm], ?_⟩
  intro w app hw hc
  subst hc
  rcases w with ⟨inst, pending⟩
  simp only at hw
  subst hw
  simp [onContainer, Eff.seq, hrun]

/-- Witness of C9: the new container of a configuration with the mailer on and
no redis settings. -/
theorem InitMailer_requires_queue_witness :
    (NewContainer 1 2 noRedisEnv.configs).appConfig.Features.MailerEnabled = true ∧
    (NewContainer 1 2 noRedisEnv.configs).queue = none ∧
    Container.InitMailer noRedisEnv (NewContainer 1 2 noRedisEnv.configs) =
      ⟨.error (.panic "Queue is required to initialize mailer"),
        NewContainer 1 2 noRedisEnv.configs,
        [.logPanic "Queue is required to initialize mailer"]⟩ :=
  ⟨rfl, rfl, (InitMailer_requires_queue noRedisEnv (NewContainer 1 2 noRedisEnv.configs)
    rfl rfl).1⟩

/-- C10, the failing input: on a container whose queue slot is nil and whose
scheduler slot is filled, with the go-live callback registered by `InitFiber`,
the callback does not skip the nil queue: the type assertion on it panics, and
the scheduler is not started. -/
theorem onListenHandler_nil_queue_panics :
    noQueueContainer.queue = none ∧
    noQueueContainer.cron = some 16 ∧
    (noQueueContainer.fiber.map fun fb => fb.onListen) = some [.goLive] ∧
    onListenHandler plainEnv noQueueContainer =
      ⟨.error (.panic "interface conversion: interface is nil, not *core.GoeQueue"),
        noQueueContainer, []⟩ :=
  ⟨rfl, rfl, rfl, rfl⟩

/-- The go-live callback on a container with a queue: the queue is started
once; the scheduler is started once when the queue started and its slot is not
nil, and not otherwise. -/
theorem onListenHandler_with_queue (env : Env) (c : Container) (q : Handle)
    (hq : c.queue = some q) :
    (onListenHandler env c).trace.count (.start .queue) = 1 ∧
    (onListenHandler env c).trace.count (.start .cron) =
      if env.queueStart q = none ∧ c.cron.isSome = true then 1 else 0 := by
  cases hs : env.queueStart q <;> cases hc : c.cron <;>
    simp [onListenHandler, Eff.seq, Eff.read, Eff.emit, loggerPanic, loggerInfo, Eff.abort,
      hq, hs, hc]

end Goe
